import Mathlib

/-!
Shallow embedding of the telemetry pipeline of the tesla_cam repository.

JavaScript numbers are modelled as rationals (ℚ); byte buffers as `List ℕ`.
The JS `a || b || c` falsy-coalescing idiom (where `0`, `null`/absent and
`false` are falsy) is modelled explicitly, since the source uses it for every
field read of a decoded SEI record.

Sources embedded here:
* `src/js/telemetry-decoder.js` — `TelemetryDecoder` (`buildIndex`,
  `decodeSEIMessage`, `getTelemetryAtTime`); the `Map` index is a list of
  key/value pairs in insertion order, `Map.set` overwriting in place.
* `src/unnamed/part_001` — `DashcamMP4.findBox`, `stripEmulationBytes`,
  `decodeSei`, and the regen display logic of `src/js/app.js`.
-/

namespace TeslaCam

/-- JS truthiness of a possibly-absent number: `undefined`/`null` and `0` are
falsy, every other number is truthy. -/
def truthyQ : Option ℚ → Bool
  | none => false
  | some x => x ≠ 0

/-- `a || b || d` for numbers, as used throughout `decodeSEIMessage`:
the first truthy operand wins, otherwise the default `d` is returned. -/
def jsOrNum (a b : Option ℚ) (d : ℚ) : ℚ :=
  if truthyQ a then a.getD 0 else if truthyQ b then b.getD 0 else d

/-- `a || b || null` for numbers: first truthy operand, else `null`. -/
def jsOrQ (a b : Option ℚ) : Option ℚ :=
  if truthyQ a then a else if truthyQ b then b else none

/-- `a || b || false` for booleans: `undefined` and `false` are falsy. -/
def jsOrBool (a b : Option Bool) : Bool :=
  decide (a = some true) || decide (b = some true)

/-- A raw SEI message as handed to `decodeSEIMessage`: every field may be
present under a camelCase or a snake_case key, or absent. -/
structure SeiData where
  vehicleSpeedMps : Option ℚ
  vehicle_speed_mps : Option ℚ
  steeringWheelAngle : Option ℚ
  steering_wheel_angle : Option ℚ
  acceleratorPedalPosition : Option ℚ
  accelerator_pedal_position : Option ℚ
  brakeApplied : Option Bool
  brake_applied : Option Bool
  blinkerOnLeft : Option Bool
  blinker_on_left : Option Bool
  blinkerOnRight : Option Bool
  blinker_on_right : Option Bool
  autopilotState : Option ℚ
  autopilot_state : Option ℚ
  gearState : Option ℚ
  gear_state : Option ℚ
  latitudeDeg : Option ℚ
  latitude_deg : Option ℚ
  longitudeDeg : Option ℚ
  longitude_deg : Option ℚ
  headingDeg : Option ℚ
  heading_deg : Option ℚ
  linearAccelerationMps2X : Option ℚ
  linear_acceleration_mps2_x : Option ℚ
  linearAccelerationMps2Y : Option ℚ
  linear_acceleration_mps2_y : Option ℚ
  linearAccelerationMps2Z : Option ℚ
  linear_acceleration_mps2_z : Option ℚ
  frameSeqNo : Option ℚ
  frame_seq_no : Option ℚ
  deriving DecidableEq

/-- A `SeiData` with every field absent; concrete inputs are record updates
of this value. -/
def emptySei : SeiData :=
  ⟨none, none, none, none, none, none, none, none, none, none,
   none, none, none, none, none, none, none, none, none, none,
   none, none, none, none, none, none, none, none, none, none⟩

/-- `MPS_TO_MPH = 2.23694` from telemetry-decoder.js. -/
def MPS_TO_MPH : ℚ := 223694 / 100000

/-- `MPS_TO_KPH = 3.6` from telemetry-decoder.js. -/
def MPS_TO_KPH : ℚ := 36 / 10

/-- `AUTOPILOT_STATES[s]` dictionary lookup (keys 0..3). -/
def AUTOPILOT_STATES (s : ℚ) : Option String :=
  if s = 0 then some "OFF"
  else if s = 1 then some "FSD"
  else if s = 2 then some "AUTOSTEER"
  else if s = 3 then some "TACC"
  else none

/-- `GEAR_STATES[s]` dictionary lookup (keys 0..3). -/
def GEAR_STATES (s : ℚ) : Option String :=
  if s = 0 then some "P"
  else if s = 1 then some "D"
  else if s = 2 then some "R"
  else if s = 3 then some "N"
  else none

structure Speed where
  mps : ℚ
  mph : ℚ
  kph : ℚ
  deriving DecidableEq

structure TurnSignals where
  left : Bool
  right : Bool
  deriving DecidableEq

structure AutopilotInfo where
  state : ℚ
  name : String
  isActive : Bool
  deriving DecidableEq

structure GearInfo where
  state : ℚ
  name : String
  deriving DecidableEq

structure GpsInfo where
  latitude : Option ℚ
  longitude : Option ℚ
  heading : Option ℚ
  isValid : Bool
  deriving DecidableEq

structure Acceleration where
  x : ℚ
  y : ℚ
  z : ℚ
  deriving DecidableEq

/-- The object literal returned by `decodeSEIMessage` (telemetry-decoder.js
lines 138–192).  Note that it has exactly these components: in particular it
carries no `regenBraking` field. -/
structure Telemetry where
  speed : Speed
  steeringAngle : ℚ
  accelerator : ℚ
  brake : Bool
  turnSignals : TurnSignals
  autopilot : AutopilotInfo
  gear : GearInfo
  gps : GpsInfo
  acceleration : Acceleration
  frameSeqNo : ℚ
  _raw : SeiData
  deriving DecidableEq

/-- `TelemetryDecoder.decodeSEIMessage(seiData, index)`. -/
def decodeSEIMessage (seiData : SeiData) (index : ℚ) : Telemetry :=
  let speedMps := jsOrNum seiData.vehicleSpeedMps seiData.vehicle_speed_mps 0
  let speedMph := speedMps * MPS_TO_MPH
  let speedKph := speedMps * MPS_TO_KPH
  let steeringAngle := jsOrNum seiData.steeringWheelAngle seiData.steering_wheel_angle 0
  let accelerator :=
    (jsOrNum seiData.acceleratorPedalPosition seiData.accelerator_pedal_position 0) * 100
  let brakeApplied := jsOrBool seiData.brakeApplied seiData.brake_applied
  let leftSignal := jsOrBool seiData.blinkerOnLeft seiData.blinker_on_left
  let rightSignal := jsOrBool seiData.blinkerOnRight seiData.blinker_on_right
  let autopilotState := jsOrNum seiData.autopilotState seiData.autopilot_state 0
  let autopilotName := (AUTOPILOT_STATES autopilotState).getD "OFF"
  let gearState := jsOrNum seiData.gearState seiData.gear_state 0
  let gearName := (GEAR_STATES gearState).getD "P"
  let latitude := jsOrQ seiData.latitudeDeg seiData.latitude_deg
  let longitude := jsOrQ seiData.longitudeDeg seiData.longitude_deg
  let heading := jsOrQ seiData.headingDeg seiData.heading_deg
  let accelX := jsOrNum seiData.linearAccelerationMps2X seiData.linear_acceleration_mps2_x 0
  let accelY := jsOrNum seiData.linearAccelerationMps2Y seiData.linear_acceleration_mps2_y 0
  let accelZ := jsOrNum seiData.linearAccelerationMps2Z seiData.linear_acceleration_mps2_z 0
  let frameSeqNo := jsOrNum seiData.frameSeqNo seiData.frame_seq_no index
  { speed := ⟨speedMps, speedMph, speedKph⟩
    steeringAngle := steeringAngle
    accelerator := accelerator
    brake := brakeApplied
    turnSignals := ⟨leftSignal, rightSignal⟩
    autopilot := ⟨autopilotState, autopilotName, autopilotState ≠ 0⟩
    gear := ⟨gearState, gearName⟩
    gps := ⟨latitude, longitude, heading, latitude.isSome && longitude.isSome⟩
    acceleration := ⟨accelX, accelY, accelZ⟩
    frameSeqNo := frameSeqNo
    _raw := seiData }

/-- Mutable state of a `TelemetryDecoder` instance; the JS `Map` is a list of
key/value pairs in insertion order. -/
structure DecoderState where
  telemetryIndex : List (ℚ × Telemetry)
  frameRate : ℚ
  duration : ℚ
  deriving DecidableEq

/-- The constructor: empty index, default frame rate 30, duration 0. -/
def DecoderState.init : DecoderState := ⟨[], 30, 0⟩

/-- `Map.set`: overwrite in place when the key exists, else append. -/
def mapSet (m : List (ℚ × Telemetry)) (k : ℚ) (v : Telemetry) :
    List (ℚ × Telemetry) :=
  if m.any (fun p => decide (p.1 = k)) then
    m.map (fun p => if p.1 = k then (k, v) else p)
  else m ++ [(k, v)]

/-- `Map.get`: value of the (unique) pair with the given key, `none` for
`undefined`. -/
def mapGet (m : List (ℚ × Telemetry)) (k : ℚ) : Option Telemetry :=
  (m.find? (fun p => decide (p.1 = k))).map Prod.snd

/-- The only field of the video configuration that `buildIndex` reads. -/
structure VideoConfig where
  durations : List ℚ
  deriving DecidableEq

/-- Frame-rate computation at the top of `buildIndex`: average the sample
durations when a config with a non-empty durations array is supplied,
otherwise keep the current frame rate (`videoConfig.durations` itself is an
array and hence always truthy in JS, so only presence and length matter). -/
def computeFrameRate (st : DecoderState) (videoConfig : Option VideoConfig) : ℚ :=
  match videoConfig with
  | some vc =>
      if 0 < vc.durations.length then
        let avgFrameDuration := vc.durations.sum / (vc.durations.length : ℚ)
        if 0 < avgFrameDuration then 1000 / avgFrameDuration else 30
      else st.frameRate
  | none => st.frameRate

/-- The `for` loop of `buildIndex`: decode each message, derive its timestamp
from `frameSeqNo || frame_seq_no || i` divided by the frame rate, and insert
it into the index. -/
def indexLoop (frameRate : ℚ) : List SeiData → ℕ → List (ℚ × Telemetry) →
    List (ℚ × Telemetry)
  | [], _, m => m
  | seiData :: rest, i, m =>
      let telemetry := decodeSEIMessage seiData (i : ℚ)
      let frameNumber := jsOrNum seiData.frameSeqNo seiData.frame_seq_no (i : ℚ)
      let timestamp := frameNumber / frameRate
      indexLoop frameRate rest (i + 1) (mapSet m timestamp telemetry)

/-- `TelemetryDecoder.buildIndex(seiMessages, videoConfig, duration)`:
clears the index, recomputes the frame rate, indexes every message and
returns the new state together with `this.telemetryIndex.size`. -/
def buildIndex (st : DecoderState) (seiMessages : List SeiData)
    (videoConfig : Option VideoConfig) (duration : ℚ) : DecoderState × ℕ :=
  let frameRate := computeFrameRate st videoConfig
  let idx := indexLoop frameRate seiMessages 0 []
  (⟨idx, frameRate, duration⟩, idx.length)

/-- The timestamps `buildIndex` assigns to a message list (position `i` gets
`(frameSeqNo || frame_seq_no || i) / frameRate`). -/
def tsList (frameRate : ℚ) : List SeiData → ℕ → List ℚ
  | [], _ => []
  | seiData :: rest, i =>
      jsOrNum seiData.frameSeqNo seiData.frame_seq_no (i : ℚ) / frameRate ::
        tsList frameRate rest (i + 1)

/-- The scan loop of `getTelemetryAtTime`: walk the keys in insertion order
keeping the strictly closest timestamp so far (`none` models
`closestTime = null / minDiff = Infinity`), breaking as soon as the current
key is within `0.016` of the query. -/
def scanKeys (time : ℚ) : List ℚ → Option (ℚ × ℚ) → Option (ℚ × ℚ)
  | [], acc => acc
  | ts :: rest, acc =>
      let diff := |ts - time|
      let acc' :=
        match acc with
        | none => some (ts, diff)
        | some (ct, md) => if diff < md then some (ts, diff) else some (ct, md)
      if diff < 16 / 1000 then acc' else scanKeys time rest acc'

/-- `TelemetryDecoder.getTelemetryAtTime(time)`. -/
def getTelemetryAtTime (st : DecoderState) (time : ℚ) : Option Telemetry :=
  match scanKeys time (st.telemetryIndex.map Prod.fst) none with
  | some (closestTime, _) => mapGet st.telemetryIndex closestTime
  | none => none

/-- `DashcamMP4.stripEmulationBytes` loop, with the running count of
consecutive zero bytes as the second argument. -/
def stripLoop : List ℕ → ℕ → List ℕ
  | [], _ => []
  | byte :: rest, zeros =>
      if 2 ≤ zeros ∧ byte = 3 then stripLoop rest 0
      else byte :: stripLoop rest (if byte = 0 then zeros + 1 else 0)

/-- `DashcamMP4.stripEmulationBytes(data)`. -/
def stripEmulationBytes (data : List ℕ) : List ℕ := stripLoop data 0

/-- Does the byte sequence contain the contiguous subsequence `00 00 03`? -/
def has003 : List ℕ → Bool
  | b0 :: b1 :: b2 :: rest =>
      (decide (b0 = 0) && decide (b1 = 0) && decide (b2 = 3)) ||
        has003 (b1 :: b2 :: rest)
  | _ => false

/-- The `while (i < nal.length && nal[i] === 0x42) i++` scan of `decodeSei`,
as a fuelled recursion (the loop runs at most `nal.length - i` times, so the
fuel `nal.length` supplied by `skip42` always suffices). -/
def skip42From (nal : List ℕ) : ℕ → ℕ → ℕ
  | 0, i => i
  | fuel + 1, i =>
      if i < nal.length ∧ nal.getD i 0 = 0x42 then skip42From nal fuel (i + 1)
      else i

/-- The index reached by the `0x42` marker scan starting at `i`. -/
def skip42 (nal : List ℕ) (i : ℕ) : ℕ := skip42From nal nal.length i

/-- `DashcamMP4.decodeSei(nal, SeiMetadata)`.  `schemaLoaded` models whether
the `SeiMetadata` protobuf type is non-null; the successful result is the
stripped byte slice handed to the external protobuf runtime
(`SeiMetadata.decode`, vendored code outside this repository). -/
def decodeSei (schemaLoaded : Bool) (nal : List ℕ) : Option (List ℕ) :=
  if schemaLoaded = false ∨ nal.length < 4 then none
  else
    let i := skip42 nal 3
    if i ≤ 3 ∨ nal.length ≤ i + 1 ∨ nal.getD i 0 ≠ 0x69 then none
    else some (stripEmulationBytes ((nal.take (nal.length - 1)).drop (i + 1)))

/-- Big-endian `DataView.getUint32`. -/
def getUint32 (buf : List ℕ) (pos : ℕ) : ℕ :=
  buf.getD pos 0 * 2 ^ 24 + buf.getD (pos + 1) 0 * 2 ^ 16 +
    buf.getD (pos + 2) 0 * 2 ^ 8 + buf.getD (pos + 3) 0

/-- The 64-bit extended size: `(high << 32) | low`. -/
def getUint64 (buf : List ℕ) (pos : ℕ) : ℕ :=
  getUint32 buf pos * 2 ^ 32 + getUint32 buf (pos + 4)

/-- `readAscii(pos, 4)`: the four type bytes of a box header. -/
def typeAt (buf : List ℕ) (pos : ℕ) : List ℕ :=
  [buf.getD pos 0, buf.getD (pos + 1) 0, buf.getD (pos + 2) 0, buf.getD (pos + 3) 0]

/-- `headerSize = size === 1 ? 16 : 8`. -/
def headerSizeAt (buf : List ℕ) (pos : ℕ) : ℕ :=
  if getUint32 buf pos = 1 then 16 else 8

/-- The effective box size after the size-field adjustments of `findBox`:
`1` means a 64-bit size follows, `0` means the box extends to `endP`. -/
def sizeAt (buf : List ℕ) (endP pos : ℕ) : ℕ :=
  let size := getUint32 buf pos
  if size = 1 then getUint64 buf (pos + 8)
  else if size = 0 then endP - pos
  else size

/-- The range returned by `findBox`; the JS field `end` is a Lean keyword and
is called `endP` here. -/
structure Box where
  start : ℕ
  endP : ℕ
  size : ℕ
  deriving DecidableEq

/-- The `for (let pos = start; pos + 8 <= end;)` loop of `findBox`, as a
fuelled recursion (`none` models both the `throw` at loop exit and, when fuel
runs out, a loop that never returns; the fuel supplied by `findBox` suffices
for every terminating run, since each step advances `pos` by at least one). -/
def findBoxAux (buf : List ℕ) (endP : ℕ) (name : List ℕ) :
    ℕ → ℕ → Option Box
  | 0, _ => none
  | fuel + 1, pos =>
      if pos + 8 ≤ endP then
        if typeAt buf (pos + 4) = name then
          some ⟨pos + headerSizeAt buf pos, pos + sizeAt buf endP pos,
                sizeAt buf endP pos - headerSizeAt buf pos⟩
        else findBoxAux buf endP name fuel (pos + sizeAt buf endP pos)
      else none

/-- `DashcamMP4.findBox(start, end, name)`; `none` models the thrown
`Box "name" not found` error. -/
def findBox (buf : List ℕ) (start endP : ℕ) (name : List ℕ) : Option Box :=
  findBoxAux buf endP name (endP + 1 - start) start

/-- A valid top-level box layout of the window `[pos, endP)`: the positions
`ps` are the successive box starts, each box is at least as large as its own
header and stays inside the window. -/
inductive Chain (buf : List ℕ) (endP : ℕ) : ℕ → List ℕ → Prop
  | nil (pos : ℕ) : endP < pos + 8 → Chain buf endP pos []
  | cons (pos : ℕ) (ps : List ℕ) :
      pos + 8 ≤ endP →
      headerSizeAt buf pos ≤ sizeAt buf endP pos →
      pos + sizeAt buf endP pos ≤ endP →
      Chain buf endP (pos + sizeAt buf endP pos) ps →
      Chain buf endP pos (pos :: ps)

/-- Modelled from the spec (§4.6, derived secondary computation), because no
file under src/ computes it: `regenBraking = true` when longitudinal
acceleration < −0.5 m/s², accelerator pedal < 5 %, the brake is not applied
and speed > 0.5 m/s.  The x axis is taken as the longitudinal one. -/
def regenBraking_spec (t : Telemetry) : Bool :=
  t.acceleration.x < -(1 / 2) && t.accelerator < 5 && !t.brake &&
    1 / 2 < t.speed.mps

/-- The regen readout of `app.js` (`telemetry.regenBraking ? 'Yes' : 'No'`,
lines 430–436): the record produced by `decodeSEIMessage` has no
`regenBraking` property, so the JS access yields `undefined`, which is falsy,
and the ternary always takes the `'No'` branch. -/
def regenDisplayed (_t : Telemetry) : String := "No"

/-- Key-insertion skeleton of the index build: the keys of the `Map` after
`Map.set` has been called for each timestamp in turn. -/
def foldIns : List ℚ → List ℚ → List ℚ
  | acc, [] => acc
  | acc, k :: ks => foldIns (if k ∈ acc then acc else acc ++ [k]) ks

/-! Concrete inputs used by the counterexamples and witnesses. -/

/-- A record whose only present field is a steering angle of 1°. -/
def rec0 : SeiData := { emptySei with steeringWheelAngle := some 1 }

/-- A record whose only present field is a steering angle of 2°. -/
def rec1 : SeiData := { emptySei with steeringWheelAngle := some 2 }

/-- A record whose only present field is a steering angle of 3°. -/
def rec2 : SeiData := { emptySei with steeringWheelAngle := some 3 }

/-- The state after indexing three records without sequence counters at frame
rate 1 (sample durations `[1000 ms]`): their timestamps are 0, 1 and 2. -/
def threeRecState : DecoderState :=
  (buildIndex DecoderState.init [rec0, rec1, rec2] (some ⟨[1000]⟩) 3).1

/-- A record with a raw accelerator pedal position of 1.5 (150 % of scale). -/
def exAccel : SeiData := { emptySei with acceleratorPedalPosition := some (3 / 2) }

/-- A record with a raw accelerator pedal position of −0.1. -/
def exAccelNeg : SeiData :=
  { emptySei with acceleratorPedalPosition := some (-(1 / 10)) }

/-- A record carrying only a raw accelerator pedal position `q`. -/
def accelInput (q : ℚ) : SeiData :=
  { emptySei with acceleratorPedalPosition := some q }

/-- A record with out-of-range latitude 91° and longitude 10°. -/
def gps91 : SeiData :=
  { emptySei with latitudeDeg := some 91, longitudeDeg := some 10 }

/-- A record with latitude 0° and longitude 10°: the falsy `||` chain
coalesces the zero coordinate to `null`. -/
def gps0 : SeiData :=
  { emptySei with latitudeDeg := some 0, longitudeDeg := some 10 }

/-- The state after indexing just `gps91` at frame rate 1. -/
def st91 : DecoderState :=
  (buildIndex DecoderState.init [gps91] (some ⟨[1000]⟩) 1).1

/-- A record carrying the cumulative session counter 50000. -/
def cum0 : SeiData := { emptySei with frameSeqNo := some 50000 }

/-- A record carrying the cumulative session counter 50001. -/
def cum1 : SeiData := { emptySei with frameSeqNo := some 50001 }

/-- First of two records sharing the frame sequence number 7. -/
def dup0 : SeiData :=
  { emptySei with frameSeqNo := some 7, steeringWheelAngle := some 1 }

/-- Second of two records sharing the frame sequence number 7. -/
def dup1 : SeiData :=
  { emptySei with frameSeqNo := some 7, steeringWheelAngle := some 2 }

/-- A record in the regen regime of §4.6: longitudinal acceleration −1 m/s²,
accelerator 0 %, brake not applied, speed 1 m/s. -/
def regenInput : SeiData :=
  { emptySei with linearAccelerationMps2X := some (-1), vehicleSpeedMps := some 1 }

/-- A 28-byte buffer holding a 16-byte `free` box followed by a size-0 `mdat`
box that extends to the end of the buffer. -/
def demoBuf : List ℕ :=
  [0, 0, 0, 16, 0x66, 0x72, 0x65, 0x65, 0, 0, 0, 0, 0, 0, 0, 0,
   0, 0, 0, 0, 0x6d, 0x64, 0x61, 0x74, 1, 2, 3, 4]

/-! Helper lemmas about the escape-sequence stripper. -/

/-- `has003` stays false when the head byte is dropped. -/
theorem has003_of_cons {a : ℕ} {l : List ℕ} (h : has003 (a :: l) = false) :
    has003 l = false := by
  match l with
  | [] => rfl
  | [b] => rfl
  | b :: c :: rest =>
    rw [has003] at h
    exact (Bool.or_eq_false_iff.mp h).2

/-- `has003` stays false when a prefix is dropped. -/
theorem has003_of_append {xs l : List ℕ} (h : has003 (xs ++ l) = false) :
    has003 l = false := by
  induction xs with
  | nil => simpa using h
  | cons a xs ih =>
    apply ih
    exact has003_of_cons (by simpa using h)

/-- The strip loop copies its input unchanged whenever `00 00 03` does not
occur in the input prefixed by the zeros already buffered in the counter
(of which only the last two matter). -/
theorem stripLoop_eq_self :
    ∀ (l : List ℕ) (zeros : ℕ),
      has003 (List.replicate (min zeros 2) 0 ++ l) = false →
      stripLoop l zeros = l := by
  intro l
  induction l with
  | nil => intro zeros _; rfl
  | cons b rest ih =>
    intro zeros h
    have hnot : ¬(2 ≤ zeros ∧ b = 3) := by
      rintro ⟨hz, rfl⟩
      have hmin : min zeros 2 = 2 := by omega
      rw [hmin] at h
      simp [List.replicate, has003] at h
    rw [stripLoop, if_neg hnot]
    congr 1
    by_cases hb : b = 0
    · subst hb
      rw [if_pos rfl]
      apply ih
      rcases Nat.lt_or_ge zeros 2 with hz | hz
      · interval_cases zeros
        · simpa using h
        · simpa using h
      · have h1 : min zeros 2 = 2 := by omega
        have h2 : min (zeros + 1) 2 = 2 := by omega
        rw [h1] at h
        rw [h2]
        simp only [List.replicate, List.cons_append, List.nil_append,
          has003] at h ⊢
        simpa using h
    · rw [if_neg hb]
      apply ih
      simpa using has003_of_cons (has003_of_append h)

/-- C6 counterexample: on the input `00 00 03 03` the stripper's output is
`00 00 03`, which does contain the 3-byte subsequence `00 00 03`, and
stripping that output again changes it — so neither conjunct of the claim
holds of the code. -/
theorem strip_emits_00_00_03 :
    has003 (stripEmulationBytes [0, 0, 3, 3]) = true ∧
    stripEmulationBytes (stripEmulationBytes [0, 0, 3, 3]) ≠
      stripEmulationBytes [0, 0, 3, 3] := by
  decide

/-- C6 (amended): the stripper fixes every input that contains no contiguous
`00 00 03` (so its output may contain `00 00 03` only when a removed `0x03`
was immediately followed by another `0x03`), and stripping is idempotent on
exactly those inputs whose first-pass output is free of `00 00 03`. -/
theorem strip_fixes_clean_inputs (x : List ℕ) :
    (has003 x = false → stripEmulationBytes x = x) ∧
    (has003 (stripEmulationBytes x) = false →
      stripEmulationBytes (stripEmulationBytes x) = stripEmulationBytes x) := by
  constructor
  · intro hx
    apply stripLoop_eq_self
    simpa using hx
  · intro hx
    apply stripLoop_eq_self
    simpa using hx

/-- C6 witness: both parts of the amended statement applied to the concrete
input `00 00 01 03`. -/
theorem strip_fixes_clean_inputs_witness :
    stripEmulationBytes [0, 0, 1, 3] = [0, 0, 1, 3] ∧
    stripEmulationBytes (stripEmulationBytes [0, 0, 1, 3]) =
      stripEmulationBytes [0, 0, 1, 3] :=
  ⟨(strip_fixes_clean_inputs [0, 0, 1, 3]).1 (by decide),
   (strip_fixes_clean_inputs [0, 0, 1, 3]).2 (by decide)⟩

/-- C5 counterexample: invoked without a loaded schema on a well-formed SEI
NAL unit, `decodeSei` returns `null` — exactly the same normal non-result it
returns for an undecodable payload — instead of failing with a
`SchemaNotLoadedError` (no such error exists in the code). -/
theorem decodeSei_noSchema_returns_null :
    decodeSei false [6, 5, 0x42, 0x42, 0x69, 1, 2, 0] = none ∧
    decodeSei true [6, 5, 0x42, 0x42, 0x69, 1, 2, 0] = some [1, 2] ∧
    decodeSei true [1, 2] = none := by
  decide

/-- C5 (amended): if the schema decoder is invoked before schema
initialization has completed, it returns `null` for every input, the same
non-result used for undecodable payloads, rather than raising an error. -/
theorem decodeSei_noSchema_always_null (nal : List ℕ) :
    decodeSei false nal = none := by
  simp [decodeSei]

/-- C2 counterexample: a raw accelerator pedal position of 1.5 (150 % of the
nominal 0–1 scale) is stored as 150, outside the claimed interval
`[0, 100]` — `decodeSEIMessage` multiplies by 100 without clamping. -/
theorem accelerator_exceeds_100 :
    (decodeSEIMessage exAccel 0).accelerator = 150 ∧
    ¬(decodeSEIMessage exAccel 0).accelerator ≤ 100 := by
  norm_num [decodeSEIMessage, exAccel, emptySei, jsOrNum, truthyQ]

/-- C2 (amended): the stored accelerator value is the raw pedal position
times 100 with no clamping at all: raw 1.5 is stored as 150 and raw −0.1 as
−10 (only the dashboard bar width in `app.js` clamps, the stored record and
the displayed percentage text do not). -/
theorem accelerator_unclamped :
    (∀ q : ℚ, (decodeSEIMessage (accelInput q) 0).accelerator = q * 100) ∧
    (decodeSEIMessage exAccel 0).accelerator = 150 ∧
    (decodeSEIMessage exAccelNeg 0).accelerator = -10 := by
  refine ⟨fun q => ?_, ?_, ?_⟩
  · by_cases hq : q = 0
    · subst hq
      norm_num [decodeSEIMessage, accelInput, emptySei, jsOrNum, truthyQ]
    · norm_num [decodeSEIMessage, accelInput, emptySei, jsOrNum, truthyQ, hq]
  · norm_num [decodeSEIMessage, exAccel, emptySei, jsOrNum, truthyQ]
  · norm_num [decodeSEIMessage, exAccelNeg, emptySei, jsOrNum, truthyQ]

/-- C4: at a record squarely inside the spec's regen regime (longitudinal
acceleration −1 m/s², accelerator 0 %, brake released, speed 1 m/s) the
spec-mandated flag is true, but the record `decodeSEIMessage` builds carries
no `regenBraking` field at all, so the dashboard's readout of
`telemetry.regenBraking` is permanently `'No'`. -/
theorem regen_flag_never_produced :
    regenBraking_spec (decodeSEIMessage regenInput 0) = true ∧
    regenDisplayed (decodeSEIMessage regenInput 0) = "No" := by
  constructor
  · norm_num [regenBraking_spec, decodeSEIMessage, regenInput, emptySei,
      jsOrNum, jsOrBool, truthyQ]
    decide
  · rfl

/-- C1: evaluation of the code at the regression input of §8. With frame
rate 1 and two records carrying the cumulative counters 50000 and 50001,
`buildIndex` keys them at timestamps 50000 and 50001 — the line
`frameNumber = seiData.frameSeqNo || seiData.frame_seq_no || i` uses the
record's own sequence counter, not its position, so the indexed timestamps
are not the claimed `0, 1/F, ...`. -/
theorem buildIndex_timestamps_from_frameSeqNo :
    ((buildIndex DecoderState.init [cum0, cum1]
        (some ⟨[1000]⟩) 2).1.telemetryIndex.map Prod.fst = [50000, 50001]) ∧
    (50000 : ℚ) ≠ 0 ∧ (50001 : ℚ) ≠ 1 := by
  norm_num [buildIndex, computeFrameRate, indexLoop, decodeSEIMessage, mapSet,
    jsOrNum, jsOrQ, jsOrBool, truthyQ, emptySei, cum0, cum1, DecoderState.init,
    AUTOPILOT_STATES, GEAR_STATES, MPS_TO_MPH, MPS_TO_KPH]

/-- C3 counterexample: on the index with timestamps `{0, 1, 2}` the query
`0.4` returns the record indexed at timestamp 0 (distance 0.4 beats the
record at 1 with distance 0.6), not the record at timestamp 1 as
claimed. -/
theorem getTelemetryAtTime_04_returns_first :
    getTelemetryAtTime threeRecState (2 / 5) = some (decodeSEIMessage rec0 0) ∧
    decodeSEIMessage rec0 0 ≠ decodeSEIMessage rec1 1 := by
  norm_num [getTelemetryAtTime, threeRecState, buildIndex, computeFrameRate,
    indexLoop, decodeSEIMessage, mapSet, mapGet, scanKeys, jsOrNum, jsOrQ,
    jsOrBool, truthyQ, emptySei, rec0, rec1, rec2, DecoderState.init,
    abs_eq_max_neg, max_def, AUTOPILOT_STATES, GEAR_STATES, MPS_TO_MPH,
    MPS_TO_KPH]

/-- C3 (amended): on the index built from records at timestamps `{0, 1, 2}`,
`getTelemetryAtTime` returns the record at 0 for the queries `0.4` (nearest)
and `0.5` (a tie between 0 and 1, broken in favour of the first-found key 0),
the record at 1 for the query `1.4`, and, being nearest-neighbor rather than
range-restricted, the record at 0 for the out-of-range query `-5`. -/
theorem getTelemetryAtTime_nearest_examples :
    getTelemetryAtTime threeRecState (2 / 5) = some (decodeSEIMessage rec0 0) ∧
    getTelemetryAtTime threeRecState (1 / 2) = some (decodeSEIMessage rec0 0) ∧
    getTelemetryAtTime threeRecState (7 / 5) = some (decodeSEIMessage rec1 1) ∧
    getTelemetryAtTime threeRecState (-5) = some (decodeSEIMessage rec0 0) := by
  refine ⟨?_, ?_, ?_, ?_⟩ <;>
    norm_num [getTelemetryAtTime, threeRecState, buildIndex, computeFrameRate,
      indexLoop, decodeSEIMessage, mapSet, mapGet, scanKeys, jsOrNum, jsOrQ,
      jsOrBool, truthyQ, emptySei, rec0, rec1, rec2, DecoderState.init,
      abs_eq_max_neg, max_def, AUTOPILOT_STATES, GEAR_STATES, MPS_TO_MPH,
      MPS_TO_KPH]

/-- C7 counterexample: a record with out-of-range latitude 91 still has
`gps.isValid = true` — the code only tests presence
(`latitude !== null && longitude !== null`), never the geographic range. -/
theorem gps_isValid_ignores_range :
    (decodeSEIMessage gps91 0).gps.latitude = some 91 ∧
    (decodeSEIMessage gps91 0).gps.isValid = true := by
  norm_num [decodeSEIMessage, gps91, emptySei, jsOrQ, truthyQ]

/-- The coalesced coordinate is present exactly when one of the two raw
fields is truthy (present and non-zero). -/
theorem jsOrQ_isSome (a b : Option ℚ) :
    (jsOrQ a b).isSome = (truthyQ a || truthyQ b) := by
  unfold jsOrQ
  by_cases ha : truthyQ a = true
  · rw [if_pos ha, ha]
    cases a with
    | none => simp [truthyQ] at ha
    | some x => simp
  · have ha' : truthyQ a = false := by simpa using ha
    rw [if_neg ha, ha']
    by_cases hb : truthyQ b = true
    · rw [if_pos hb, hb]
      cases b with
      | none => simp [truthyQ] at hb
      | some y => simp
    · have hb' : truthyQ b = false := by simpa using hb
      rw [if_neg hb, hb']
      simp

/-- C7 (amended): `gps.isValid` is true **exactly when** both latitude and
longitude are present after the falsy coalescing — i.e. iff some raw field
of each coordinate is present and non-zero, so a coordinate equal to 0
counts as absent and makes `isValid` false — with no geographic range
validation; the out-of-range record is — as the claim also says — retained
in the index and retrievable via `getTelemetryAtTime`. -/
theorem gps_isValid_presence_only :
    (∀ (s : SeiData) (i : ℚ),
      (decodeSEIMessage s i).gps.isValid = true ↔
        ((truthyQ s.latitudeDeg = true ∨ truthyQ s.latitude_deg = true) ∧
          (truthyQ s.longitudeDeg = true ∨ truthyQ s.longitude_deg = true))) ∧
    ((decodeSEIMessage gps0 0).gps.latitude = none ∧
      (decodeSEIMessage gps0 0).gps.isValid = false) ∧
    (getTelemetryAtTime st91 0 = some (decodeSEIMessage gps91 0) ∧
      (decodeSEIMessage gps91 0).gps.isValid = true) := by
  refine ⟨fun s i => ?_, ⟨?_, ?_⟩, ?_, ?_⟩
  · show ((jsOrQ s.latitudeDeg s.latitude_deg).isSome &&
      (jsOrQ s.longitudeDeg s.longitude_deg).isSome) = true ↔ _
    rw [Bool.and_eq_true, jsOrQ_isSome, jsOrQ_isSome,
      Bool.or_eq_true, Bool.or_eq_true]
  · norm_num [decodeSEIMessage, gps0, emptySei, jsOrQ, truthyQ]
  · norm_num [decodeSEIMessage, gps0, emptySei, jsOrQ, truthyQ]
  · norm_num [getTelemetryAtTime, st91, buildIndex, computeFrameRate,
      indexLoop, decodeSEIMessage, mapSet, mapGet, scanKeys, jsOrNum, jsOrQ,
      jsOrBool, truthyQ, emptySei, gps91, DecoderState.init, abs_eq_max_neg,
      max_def, AUTOPILOT_STATES, GEAR_STATES, MPS_TO_MPH, MPS_TO_KPH]
  · norm_num [decodeSEIMessage, gps91, emptySei, jsOrQ, truthyQ]

/-- C7 witness: the presence biconditional applied to the concrete record
with latitude 91 and longitude 10, in both directions. -/
theorem gps_isValid_presence_only_witness :
    (decodeSEIMessage gps91 0).gps.isValid = true ∧
    ((truthyQ gps91.latitudeDeg = true ∨ truthyQ gps91.latitude_deg = true) ∧
      (truthyQ gps91.longitudeDeg = true ∨
        truthyQ gps91.longitude_deg = true)) :=
  ⟨(gps_isValid_presence_only.1 gps91 0).mpr
      (by norm_num [gps91, emptySei, truthyQ]),
   (gps_isValid_presence_only.1 gps91 0).mp
      (by norm_num [decodeSEIMessage, gps91, emptySei, jsOrQ, truthyQ])⟩

/-! Helper lemmas about the index keys. -/

/-- Overwriting the value stored under `k` does not change the key list. -/
theorem map_fst_update (m : List (ℚ × Telemetry)) (k : ℚ) (v : Telemetry) :
    (m.map fun p => if p.1 = k then (k, v) else p).map Prod.fst =
      m.map Prod.fst := by
  induction m with
  | nil => rfl
  | cons q rest ih =>
    simp only [List.map_cons, ih]
    congr 1
    by_cases hq : q.1 = k
    · simp [hq]
    · simp [hq]

/-- `Map.set` leaves the keys unchanged when the key is present and appends
it otherwise. -/
theorem mapSet_keys (m : List (ℚ × Telemetry)) (k : ℚ) (v : Telemetry) :
    (mapSet m k v).map Prod.fst =
      if k ∈ m.map Prod.fst then m.map Prod.fst
      else m.map Prod.fst ++ [k] := by
  unfold mapSet
  have hiff : m.any (fun p => decide (p.1 = k)) = true ↔ k ∈ m.map Prod.fst := by
    rw [List.any_eq_true]
    constructor
    · rintro ⟨p, hp, hpk⟩
      exact List.mem_map.mpr ⟨p, hp, by simpa using hpk⟩
    · rintro hmem
      rcases List.mem_map.mp hmem with ⟨p, hp, hpk⟩
      exact ⟨p, hp, by simpa using hpk⟩
  by_cases h : m.any (fun p => decide (p.1 = k)) = true
  · rw [if_pos h, if_pos (hiff.mp h), map_fst_update]
  · rw [if_neg h, if_neg (fun hmem => h (hiff.mpr hmem))]
    simp

/-- The keys produced by the index loop are the fold of key insertions over
the assigned timestamps. -/
theorem indexLoop_keys (frameRate : ℚ) :
    ∀ (msgs : List SeiData) (i : ℕ) (m : List (ℚ × Telemetry)),
      (indexLoop frameRate msgs i m).map Prod.fst =
        foldIns (m.map Prod.fst) (tsList frameRate msgs i) := by
  intro msgs
  induction msgs with
  | nil => intro i m; rfl
  | cons s rest ih =>
    intro i m
    simp only [indexLoop, tsList, foldIns]
    rw [ih, mapSet_keys]

/-- Inserting keys one at a time ends with one entry per distinct key. -/
theorem foldIns_card :
    ∀ (ks acc : List ℚ), acc.Nodup →
      (foldIns acc ks).length = (acc.toFinset ∪ ks.toFinset).card := by
  intro ks
  induction ks with
  | nil =>
    intro acc hnd
    simp [foldIns, List.toFinset_card_of_nodup hnd]
  | cons k rest ih =>
    intro acc hnd
    rw [foldIns]
    by_cases hk : k ∈ acc
    · rw [if_pos hk, ih acc hnd]
      congr 1
      ext a
      simp only [Finset.mem_union, List.mem_toFinset, List.mem_cons]
      constructor
      · rintro (ha | ha)
        · exact Or.inl ha
        · exact Or.inr (Or.inr ha)
      · rintro (ha | rfl | ha)
        · exact Or.inl ha
        · exact Or.inl hk
        · exact Or.inr ha
    · have hnd' : (acc ++ [k]).Nodup := by
        rw [List.nodup_append]
        exact ⟨hnd, List.nodup_singleton k,
          fun a ha hb => hk ((List.mem_singleton.mp hb) ▸ ha)⟩
      rw [if_neg hk, ih (acc ++ [k]) hnd']
      congr 1
      ext a
      simp only [Finset.mem_union, List.mem_toFinset, List.mem_append,
        List.mem_cons, List.mem_singleton]
      tauto

/-- C10: `buildIndex` returns the number of **distinct** assigned timestamps
(the index is keyed by a per-record timestamp and `Map.set` overwrites), and
on two records sharing the frame sequence number 7 it returns 1 < 2, the
duplicated key now holding the **later** record's decode. -/
theorem buildIndex_returns_distinct_count :
    (∀ (st : DecoderState) (msgs : List SeiData)
        (videoConfig : Option VideoConfig) (duration : ℚ),
      (buildIndex st msgs videoConfig duration).2 =
        (tsList (computeFrameRate st videoConfig) msgs 0).toFinset.card) ∧
    ((buildIndex DecoderState.init [dup0, dup1] (some ⟨[1000]⟩) 2).2 = 1 ∧
      1 < ([dup0, dup1] : List SeiData).length ∧
      mapGet (buildIndex DecoderState.init [dup0, dup1]
          (some ⟨[1000]⟩) 2).1.telemetryIndex 7 =
        some (decodeSEIMessage dup1 1)) := by
  constructor
  · intro st msgs videoConfig duration
    show (indexLoop (computeFrameRate st videoConfig) msgs 0 []).length = _
    rw [← List.length_map (indexLoop (computeFrameRate st videoConfig) msgs 0 [])
      Prod.fst, indexLoop_keys]
    simpa using
      foldIns_card (tsList (computeFrameRate st videoConfig) msgs 0) []
        List.nodup_nil
  · refine ⟨?_, by norm_num, ?_⟩ <;>
      norm_num [buildIndex, computeFrameRate, indexLoop, decodeSEIMessage,
        mapSet, mapGet, jsOrNum, jsOrQ, jsOrBool, truthyQ, emptySei, dup0,
        dup1, DecoderState.init, AUTOPILOT_STATES, GEAR_STATES, MPS_TO_MPH,
        MPS_TO_KPH]

/-! Helper lemmas about the nearest-timestamp scan. -/

/-- Once the accumulator holds a candidate, the scan always returns one. -/
theorem scanKeys_isSome (time : ℚ) :
    ∀ (keys : List ℚ) (c d : ℚ),
      ∃ r, scanKeys time keys (some (c, d)) = some r := by
  intro keys
  induction keys with
  | nil => exact fun c d => ⟨(c, d), rfl⟩
  | cons ts rest ih =>
    intro c d
    simp only [scanKeys]
    by_cases he : |ts - time| < 16 / 1000
    · rw [if_pos he]
      by_cases hd : |ts - time| < d
      · exact ⟨(ts, |ts - time|), by rw [if_pos hd]⟩
      · exact ⟨(c, d), by rw [if_neg hd]⟩
    · rw [if_neg he]
      by_cases hd : |ts - time| < d
      · rw [if_pos hd]
        exact ih ts (|ts - time|)
      · rw [if_neg hd]
        exact ih c d

/-- Scan specification, accumulator already holding `c₀`: the result either
is `c₀` itself — in which case every scanned key was at least as far away, or
the scan exited early — or it is some key of the list that is strictly
closer than `c₀` and than every key before it, with every key after it
either at least as far away or unscanned due to an early exit. -/
theorem scanKeys_some_spec (time : ℚ) :
    ∀ (keys : List ℚ) (c₀ ct md : ℚ),
      scanKeys time keys (some (c₀, |c₀ - time|)) = some (ct, md) →
      ((ct = c₀ ∧
          ((∀ k ∈ keys, |c₀ - time| ≤ |k - time|) ∨ |c₀ - time| < 16 / 1000)) ∨
        (∃ l₁ l₂, keys = l₁ ++ ct :: l₂ ∧ |ct - time| < |c₀ - time| ∧
          (∀ k ∈ l₁, |ct - time| < |k - time|) ∧
          ((∀ k ∈ l₂, |ct - time| ≤ |k - time|) ∨ |ct - time| < 16 / 1000))) := by
  intro keys
  induction keys with
  | nil =>
    intro c₀ ct md h
    have h1 : c₀ = ct ∧ |c₀ - time| = md := by
      simpa [scanKeys, Prod.ext_iff] using h
    obtain ⟨rfl, _⟩ := h1
    exact Or.inl ⟨rfl, Or.inl (by simp)⟩
  | cons k rest ih =>
    intro c₀ ct md h
    simp only [scanKeys] at h
    by_cases he : |k - time| < 16 / 1000
    · rw [if_pos he] at h
      by_cases hd : |k - time| < |c₀ - time|
      · rw [if_pos hd] at h
        have h1 : k = ct ∧ |k - time| = md := by simpa [Prod.ext_iff] using h
        obtain ⟨rfl, _⟩ := h1
        exact Or.inr ⟨[], rest, rfl, hd, by simp, Or.inr he⟩
      · rw [if_neg hd] at h
        have h1 : c₀ = ct ∧ |c₀ - time| = md := by simpa [Prod.ext_iff] using h
        obtain ⟨rfl, _⟩ := h1
        exact Or.inl ⟨rfl, Or.inr (lt_of_le_of_lt (not_lt.mp hd) he)⟩
    · rw [if_neg he] at h
      by_cases hd : |k - time| < |c₀ - time|
      · rw [if_pos hd] at h
        rcases ih k ct md h with hl | hr
        · obtain ⟨rfl, hsub⟩ := hl
          exact Or.inr ⟨[], rest, rfl, hd, by simp, hsub⟩
        · obtain ⟨l₁, l₂, hsplit, hlt, hstrict, hsub⟩ := hr
          refine Or.inr ⟨k :: l₁, l₂, by rw [hsplit, List.cons_append], lt_trans hlt hd, ?_, hsub⟩
          intro k' hk'
          rcases List.mem_cons.mp hk' with rfl | hk'
          · exact hlt
          · exact hstrict k' hk'
      · rw [if_neg hd] at h
        rcases ih c₀ ct md h with hl | hr
        · obtain ⟨rfl, hsub⟩ := hl
          refine Or.inl ⟨rfl, ?_⟩
          rcases hsub with hall | hlt
          · refine Or.inl fun k' hk' => ?_
            rcases List.mem_cons.mp hk' with rfl | hk'
            · exact not_lt.mp hd
            · exact hall k' hk'
          · exact Or.inr hlt
        · obtain ⟨l₁, l₂, hsplit, hlt, hstrict, hsub⟩ := hr
          refine Or.inr ⟨k :: l₁, l₂, by rw [hsplit, List.cons_append], hlt, ?_, hsub⟩
          intro k' hk'
          rcases List.mem_cons.mp hk' with rfl | hk'
          · exact lt_of_lt_of_le hlt (not_lt.mp hd)
          · exact hstrict k' hk'

/-- Scan specification from the initial `closestTime = null` state: a
successful scan returns a key of the list that is strictly closer to the
query than every key before it, while every key after it is at least as far
away unless the scan exited early within `0.016` s. -/
theorem scanKeys_none_spec (time : ℚ) (keys : List ℚ) (ct md : ℚ)
    (h : scanKeys time keys none = some (ct, md)) :
    ∃ l₁ l₂, keys = l₁ ++ ct :: l₂ ∧
      (∀ k ∈ l₁, |ct - time| < |k - time|) ∧
      ((∀ k ∈ l₂, |ct - time| ≤ |k - time|) ∨ |ct - time| < 16 / 1000) := by
  cases keys with
  | nil => simp [scanKeys] at h
  | cons k rest =>
    simp only [scanKeys] at h
    by_cases he : |k - time| < 16 / 1000
    · rw [if_pos he] at h
      have h1 : k = ct ∧ |k - time| = md := by simpa [Prod.ext_iff] using h
      obtain ⟨rfl, _⟩ := h1
      exact ⟨[], rest, rfl, by simp, Or.inr he⟩
    · rw [if_neg he] at h
      rcases scanKeys_some_spec time rest k ct md h with hl | hr
      · obtain ⟨rfl, hsub⟩ := hl
        exact ⟨[], rest, rfl, by simp, hsub⟩
      · obtain ⟨l₁, l₂, hsplit, hlt, hstrict, hsub⟩ := hr
        refine ⟨k :: l₁, l₂, by rw [hsplit, List.cons_append], ?_, hsub⟩
        intro k' hk'
        rcases List.mem_cons.mp hk' with rfl | hk'
        · exact hlt
        · exact hstrict k' hk'

/-- A scan over a non-empty key list always yields a candidate. -/
theorem scanKeys_cons_isSome (time k : ℚ) (rest : List ℚ) :
    ∃ r, scanKeys time (k :: rest) none = some r := by
  simp only [scanKeys]
  by_cases he : |k - time| < 16 / 1000
  · exact ⟨(k, |k - time|), by rw [if_pos he]⟩
  · rw [if_neg he]
    exact scanKeys_isSome time rest k (|k - time|)

/-- `Map.get` succeeds on every key present in the map. -/
theorem mapGet_isSome_of_mem :
    ∀ (m : List (ℚ × Telemetry)) (k : ℚ), k ∈ m.map Prod.fst →
      ∃ v, mapGet m k = some v := by
  intro m
  induction m with
  | nil => intro k hk; simp at hk
  | cons p rest ih =>
    intro k hk
    by_cases hp : p.1 = k
    · refine ⟨p.2, ?_⟩
      unfold mapGet
      rw [List.find?_cons_of_pos _ (by simpa using hp)]
      rfl
    · have hmem : k ∈ rest.map Prod.fst := by
        rcases List.mem_map.mp hk with ⟨q, hq, hqk⟩
        rcases List.mem_cons.mp hq with rfl | hq
        · exact absurd hqk hp
        · exact List.mem_map.mpr ⟨q, hq, hqk⟩
      obtain ⟨v, hv⟩ := ih k hmem
      refine ⟨v, ?_⟩
      unfold mapGet at hv ⊢
      rw [List.find?_cons_of_neg _ (by simpa using hp)]
      exact hv

/-- C8: `getTelemetryAtTime` returns `null` exactly when the index is empty;
a successful lookup returns the value stored under some key `ts` such that
every key inserted before `ts` is strictly farther from the query (so an
equidistant tie goes to the first-found key), and every key after `ts` is at
least as far away unless the scan exited early on a candidate within 1/60 s
(the code's threshold `0.016` is below `1/60`). -/
theorem getTelemetryAtTime_spec (st : DecoderState) (time : ℚ) :
    (getTelemetryAtTime st time = none ↔ st.telemetryIndex = []) ∧
    (∀ rec, getTelemetryAtTime st time = some rec →
      ∃ ts l₁ l₂,
        st.telemetryIndex.map Prod.fst = l₁ ++ ts :: l₂ ∧
        mapGet st.telemetryIndex ts = some rec ∧
        (∀ k ∈ l₁, |ts - time| < |k - time|) ∧
        ((∀ k ∈ l₂, |ts - time| ≤ |k - time|) ∨ |ts - time| < 1 / 60)) := by
  refine ⟨⟨?_, ?_⟩, ?_⟩
  · intro hnone
    rcases hidx : st.telemetryIndex with _ | ⟨p, m⟩
    · exact hidx ▸ rfl
    · exfalso
      unfold getTelemetryAtTime at hnone
      rw [hidx, List.map_cons] at hnone
      obtain ⟨⟨ct, md⟩, hscan⟩ := scanKeys_cons_isSome time p.1 (m.map Prod.fst)
      rw [hscan] at hnone
      have hnone' : mapGet (p :: m) ct = none := hnone
      obtain ⟨l₁, l₂, hsplit, -, -⟩ :=
        scanKeys_none_spec time (p.1 :: m.map Prod.fst) ct md hscan
      have hmem : ct ∈ (p :: m).map Prod.fst := by
        rw [List.map_cons, hsplit]
        exact List.mem_append.mpr (Or.inr (List.mem_cons_self ct l₂))
      obtain ⟨v, hv⟩ := mapGet_isSome_of_mem (p :: m) ct hmem
      rw [hv] at hnone'
      exact Option.noConfusion hnone'
  · intro hempty
    unfold getTelemetryAtTime
    rw [hempty]
    rfl
  · intro rec h
    unfold getTelemetryAtTime at h
    rcases hscan : scanKeys time (st.telemetryIndex.map Prod.fst) none with
      _ | ⟨ct, md⟩
    · rw [hscan] at h
      exact Option.noConfusion h
    · rw [hscan] at h
      obtain ⟨l₁, l₂, hsplit, hstrict, hsub⟩ :=
        scanKeys_none_spec time (st.telemetryIndex.map Prod.fst) ct md hscan
      refine ⟨ct, l₁, l₂, hsplit, h, hstrict, ?_⟩
      rcases hsub with hall | hlt
      · exact Or.inl hall
      · exact Or.inr (lt_trans hlt (by norm_num))

/-- C8 witness: the empty index answers `null`, and the three-record index
queried at time 5 is answered by the record stored at timestamp 2, with the
guaranteed ordering properties. -/
theorem getTelemetryAtTime_spec_witness :
    getTelemetryAtTime DecoderState.init 1 = none ∧
    (∃ ts l₁ l₂,
      threeRecState.telemetryIndex.map Prod.fst = l₁ ++ ts :: l₂ ∧
      mapGet threeRecState.telemetryIndex ts = some (decodeSEIMessage rec2 2) ∧
      (∀ k ∈ l₁, |ts - 5| < |k - 5|) ∧
      ((∀ k ∈ l₂, |ts - 5| ≤ |k - 5|) ∨ |ts - 5| < 1 / 60)) :=
  ⟨(getTelemetryAtTime_spec DecoderState.init 1).1.mpr rfl,
   (getTelemetryAtTime_spec threeRecState 5).2 (decodeSEIMessage rec2 2)
     (by norm_num [getTelemetryAtTime, threeRecState, buildIndex,
        computeFrameRate, indexLoop, decodeSEIMessage, mapSet, mapGet,
        scanKeys, jsOrNum, jsOrQ, jsOrBool, truthyQ, emptySei, rec0, rec1,
        rec2, DecoderState.init, abs_eq_max_neg, max_def, AUTOPILOT_STATES,
        GEAR_STATES, MPS_TO_MPH, MPS_TO_KPH])⟩

/-! Helper lemmas about the box scanner. -/

/-- Core induction over a valid chain of boxes: with enough fuel, any box the
scan returns lies between the scan position and the window end, and if no
box of the chain matches, the scan falls off the end and throws. -/
theorem findBoxAux_chain (buf name : List ℕ) (endP : ℕ) :
    ∀ {pos : ℕ} {ps : List ℕ}, Chain buf endP pos ps →
      ∀ fuel, endP + 1 ≤ fuel + pos →
      (∀ b, findBoxAux buf endP name fuel pos = some b →
        pos ≤ b.start ∧ b.start ≤ b.endP ∧ b.endP ≤ endP) ∧
      ((∀ p ∈ ps, typeAt buf (p + 4) ≠ name) →
        findBoxAux buf endP name fuel pos = none) := by
  intro pos ps hc
  induction hc with
  | nil pos hpos =>
    intro fuel _
    constructor
    · intro b hb
      exfalso
      cases fuel with
      | zero => exact Option.noConfusion hb
      | succ f =>
        rw [findBoxAux, if_neg (by omega)] at hb
        exact Option.noConfusion hb
    · intro _
      cases fuel with
      | zero => rfl
      | succ f => rw [findBoxAux, if_neg (by omega)]
  | cons pos ps hle hhs hsz hchain ih =>
    intro fuel hfuel
    have h8 : 8 ≤ headerSizeAt buf pos := by
      unfold headerSizeAt
      split <;> omega
    have hs8 : 8 ≤ sizeAt buf endP pos := le_trans h8 hhs
    cases fuel with
    | zero => omega
    | succ f =>
      have hrec := ih f (by omega)
      constructor
      · intro b hb
        rw [findBoxAux, if_pos hle] at hb
        by_cases hty : typeAt buf (pos + 4) = name
        · rw [if_pos hty] at hb
          have hb' := Option.some.inj hb
          subst hb'
          exact ⟨Nat.le_add_right _ _, Nat.add_le_add_left hhs pos, hsz⟩
        · rw [if_neg hty] at hb
          obtain ⟨h1, h2, h3⟩ := hrec.1 b hb
          exact ⟨le_trans (Nat.le_add_right pos _) h1, h2, h3⟩
      · intro hnone
        rw [findBoxAux, if_pos hle,
          if_neg (fun hty => hnone pos (List.mem_cons_self _ _) hty)]
        exact hrec.2 fun p hp => hnone p (List.mem_cons_of_mem _ hp)

/-- C9: on a search window laid out as a valid chain of boxes, `findBox`
only returns ranges contained in `[start, endP)`; a matching box whose
declared 32-bit size field is 0 comes back with `end` equal to the window's
end; and when no box of the window matches the requested type, `findBox`
throws (`none` in this embedding) instead of returning a range. -/
theorem findBox_spec (buf name : List ℕ) (start endP : ℕ) (ps : List ℕ)
    (hc : Chain buf endP start ps) :
    (∀ b, findBox buf start endP name = some b →
      start ≤ b.start ∧ b.start ≤ b.endP ∧ b.endP ≤ endP) ∧
    (∀ pos, pos + 8 ≤ endP → getUint32 buf pos = 0 →
      typeAt buf (pos + 4) = name →
      findBox buf pos endP name = some ⟨pos + 8, endP, endP - pos - 8⟩) ∧
    ((∀ p ∈ ps, typeAt buf (p + 4) ≠ name) →
      findBox buf start endP name = none) := by
  have hmain := findBoxAux_chain buf name endP hc (endP + 1 - start) (by omega)
  refine ⟨hmain.1, ?_, hmain.2⟩
  intro pos hpos hsize hty
  unfold findBox
  have hfuel : endP + 1 - pos = (endP - pos) + 1 := by omega
  rw [hfuel, findBoxAux, if_pos hpos, if_pos hty]
  have hh : headerSizeAt buf pos = 8 := by
    unfold headerSizeAt
    rw [if_neg (by omega)]
  have hs : sizeAt buf endP pos = endP - pos := by
    simp [sizeAt, hsize]
  rw [hh, hs]
  have hsum : pos + (endP - pos) = endP := by omega
  rw [hsum]

/-- The two-box layout of `demoBuf`: a 16-byte `free` box at offset 0
followed by a size-0 `mdat` box at offset 16 extending to the end (28). -/
theorem demoChain : Chain demoBuf 28 0 [0, 16] := by
  have h1 : sizeAt demoBuf 28 0 = 16 := by decide
  have h2 : sizeAt demoBuf 28 16 = 12 := by decide
  refine Chain.cons 0 [16] (by decide) (by decide) (by decide) ?_
  rw [h1]
  refine Chain.cons 16 [] (by decide) (by decide) (by decide) ?_
  rw [h2]
  exact Chain.nil _ (by decide)

/-- C9 witness: the containment part applied to the `mdat` box `[24, 28)`
that `findBox` locates in the concrete buffer, and the not-found part
applied to a type occurring nowhere in it. -/
theorem findBox_spec_witness :
    (0 ≤ (Box.mk 24 28 4).start ∧
      (Box.mk 24 28 4).start ≤ (Box.mk 24 28 4).endP ∧
      (Box.mk 24 28 4).endP ≤ 28) ∧
    findBox demoBuf 0 28 [1, 2, 3, 4] = none :=
  ⟨(findBox_spec demoBuf [109, 100, 97, 116] 0 28 [0, 16] demoChain).1
      (Box.mk 24 28 4) (by decide),
   (findBox_spec demoBuf [1, 2, 3, 4] 0 28 [0, 16] demoChain).2.2 (by decide)⟩

end TeslaCam
